import Mathlib

/-!
Verification development for the Go-Services repository (Player / Game
microservices over a Redis-cluster cache).

The definitions below are a shallow embedding of the Go source:

* the Redis cache is an association list from structured keys to entries
  carrying a value and an optional absolute expiration time (unix seconds);
* Redis values are either numeric (`ℚ`, standing for the decimal strings
  INCRBYFLOAT / ParseFloat / ParseInt operate on) or plain strings;
* time is modelled in unix seconds (the unit `time.Time.Unix()` stores),
  except for the registry reader, where milliseconds appear explicitly
  because the Go code mixes `Unix()` (seconds) with `UnixMilli` parsing;
* fallible operations return `Except`/`Option`.

Each section names the Go file and function it embeds.
-/

namespace GoServices

/-- A Redis value: numeric strings are modelled as rationals, everything
else as a plain string. -/
inductive RVal where
  | num (q : ℚ)
  | str (s : String)
deriving DecidableEq, Repr

/-- Structured cache keys, one constructor per key family of
`shared/redis/constants.go` (`online:{%s}:`, `playtime:{%s}:`,
`deltatime:{%s}:`, `banned:{%s}:`, `team:{%s}:`,
`team_total_playtime:{%s}:`, `ban_reason:%s`).  The Go format strings are
injective and mutually non-overlapping, so the constructor form is a
faithful rendering. -/
inductive RKey where
  | online (uuid : String)
  | playtime (uuid : String)
  | deltatime (uuid : String)
  | banned (uuid : String)
  | team (uuid : String)
  | teamTotal (teamId : String)
  | banReason (uuid : String)
deriving DecidableEq, Repr

/-- A cache entry: stored value plus optional absolute expiry (unix
seconds). `none` = no TTL. -/
structure Entry where
  val : RVal
  expiresAt : Option Int
deriving DecidableEq, Repr

/-- The cache: association list keyed by `RKey`. -/
abbrev Cache := List (RKey × Entry)

/-- Is an entry live at time `now`?  Redis drops a key once its expiry
time is reached. -/
def Entry.live (e : Entry) (now : Int) : Bool :=
  match e.expiresAt with
  | none => true
  | some t => now < t

/-- `SET key value` with TTL `ttl` seconds (`ttl = 0` means no TTL, as in
`redis.Set` with duration 0). -/
def Cache.set (c : Cache) (now : Int) (k : RKey) (v : RVal) (ttl : Int) : Cache :=
  (k, ⟨v, if ttl = 0 then none else some (now + ttl)⟩) ::
    c.filter (fun p => !(decide (p.1 = k)))

/-- `DEL key`. -/
def Cache.del (c : Cache) (k : RKey) : Cache :=
  c.filter (fun p => !(decide (p.1 = k)))

/-- Raw entry lookup (ignoring expiry). -/
def Cache.entry? (c : Cache) (k : RKey) : Option Entry :=
  (c.find? (fun p => decide (p.1 = k))).map Prod.snd

/-- `GET key` at time `now`: an expired entry reads as absent
(`redis.Nil`). -/
def Cache.get (c : Cache) (now : Int) (k : RKey) : Option RVal :=
  match c.entry? k with
  | none => none
  | some e => if e.live now then some e.val else none

/-- `EXISTS key` at time `now`. -/
def Cache.exists (c : Cache) (now : Int) (k : RKey) : Bool :=
  (c.get now k).isSome

/-- `INCRBYFLOAT key d` at time `now`: missing key is treated as 0.  The
entry's TTL is preserved (INCRBYFLOAT does not touch the TTL). -/
def Cache.incrByFloat (c : Cache) (now : Int) (k : RKey) (d : ℚ) : Cache :=
  match c.entry? k with
  | none => (k, ⟨RVal.num d, none⟩) :: c.filter (fun p => !(decide (p.1 = k)))
  | some e =>
    if e.live now then
      match e.val with
      | RVal.num q =>
        (k, ⟨RVal.num (q + d), e.expiresAt⟩) :: c.filter (fun p => !(decide (p.1 = k)))
      | RVal.str _ => c -- non-numeric value: the command errors, state unchanged
    else
      (k, ⟨RVal.num d, none⟩) :: c.filter (fun p => !(decide (p.1 = k)))

/-- `EXPIRE key ttl` at time `now`: refresh the TTL when the key is live;
returns the cache unchanged otherwise. -/
def Cache.expire (c : Cache) (now : Int) (k : RKey) (ttl : Int) : Cache :=
  match c.entry? k with
  | none => c
  | some e =>
    if e.live now then
      (k, ⟨e.val, some (now + ttl)⟩) :: c.filter (fun p => !(decide (p.1 = k)))
    else c

/-- Read a numeric value (Go `.Float64()` / `ParseFloat`): fails on a
non-numeric string. -/
def RVal.asNum : RVal → Option ℚ
  | RVal.num q => some q
  | RVal.str _ => none

/-- Read an integer value (Go `strconv.ParseInt`): succeeds only on an
integral numeric string. -/
def RVal.asInt : RVal → Option Int
  | RVal.num q => if q.den = 1 then some q.num else none
  | RVal.str _ => none

end GoServices


namespace GoServices

/-! ## Cache lemmas -/

theorem entry?_nil (k : RKey) : Cache.entry? [] k = none := rfl

theorem entry?_cons (k' : RKey) (e : Entry) (c : Cache) (k : RKey) :
    Cache.entry? ((k', e) :: c) k = if k' = k then some e else c.entry? k := by
  by_cases h : k' = k
  · simp [Cache.entry?, List.find?, h]
  · simp [Cache.entry?, List.find?, h]

theorem entry?_filter_ne (c : Cache) (k k' : RKey) (h : k ≠ k') :
    Cache.entry? (c.filter (fun p => !(decide (p.1 = k')))) k = c.entry? k := by
  induction c with
  | nil => rfl
  | cons hd tl ih =>
    rcases hd with ⟨kh, eh⟩
    by_cases hk : kh = k'
    · rw [List.filter_cons]
      have h1 : (!(decide ((kh, eh).1 = k'))) = false := by simp [hk]
      rw [h1, if_neg (by simp : ¬ (false = true))]
      rw [ih, entry?_cons]
      rw [if_neg (fun he => h (he.symm.trans hk))]
    · rw [List.filter_cons]
      have h1 : (!(decide ((kh, eh).1 = k'))) = true := by simp [hk]
      rw [h1, if_pos rfl]
      rw [entry?_cons, entry?_cons, ih]

theorem entry?_set_eq (c : Cache) (now : Int) (k : RKey) (v : RVal) (ttl : Int) :
    Cache.entry? (c.set now k v ttl) k
      = some ⟨v, if ttl = 0 then none else some (now + ttl)⟩ := by
  unfold Cache.set
  rw [entry?_cons, if_pos rfl]

theorem entry?_set_ne (c : Cache) (now : Int) (k k' : RKey) (v : RVal) (ttl : Int)
    (h : k ≠ k') :
    Cache.entry? (c.set now k' v ttl) k = c.entry? k := by
  unfold Cache.set
  rw [entry?_cons, if_neg (fun he => h he.symm), entry?_filter_ne c k k' h]

theorem get_set_eq (c : Cache) (now : Int) (k : RKey) (v : RVal) (ttl : Int)
    (hl : ttl = 0 ∨ 0 < ttl) :
    Cache.get (c.set now k v ttl) now k = some v := by
  unfold Cache.get
  rw [entry?_set_eq]
  rcases hl with h | h
  · simp [h, Entry.live]
  · have hne : ttl ≠ 0 := by omega
    simp only [hne, if_false, Entry.live]
    have : now < now + ttl := by omega
    simp [this]

theorem get_set_ne (c : Cache) (now now' : Int) (k k' : RKey) (v : RVal) (ttl : Int)
    (h : k ≠ k') :
    Cache.get (c.set now k' v ttl) now' k = c.get now' k := by
  unfold Cache.get
  rw [entry?_set_ne c now k k' v ttl h]

theorem entry?_del_eq (c : Cache) (k : RKey) :
    Cache.entry? (c.del k) k = none := by
  unfold Cache.del
  induction c with
  | nil => rfl
  | cons hd tl ih =>
    rcases hd with ⟨kh, eh⟩
    by_cases hk : kh = k
    · rw [List.filter_cons]
      have h1 : (!(decide ((kh, eh).1 = k))) = false := by simp [hk]
      rw [h1, if_neg (by simp : ¬ (false = true))]
      exact ih
    · rw [List.filter_cons]
      have h1 : (!(decide ((kh, eh).1 = k))) = true := by simp [hk]
      rw [h1, if_pos rfl, entry?_cons, if_neg hk]
      exact ih

theorem get_del_eq (c : Cache) (now : Int) (k : RKey) :
    Cache.get (c.del k) now k = none := by
  unfold Cache.get
  rw [entry?_del_eq]

theorem get_del_ne (c : Cache) (now : Int) (k k' : RKey) (h : k ≠ k') :
    Cache.get (c.del k') now k = c.get now k := by
  unfold Cache.get Cache.del
  rw [entry?_filter_ne c k k' h]

theorem get_incr_ne (c : Cache) (now now' : Int) (k k' : RKey) (d : ℚ) (h : k ≠ k') :
    Cache.get (c.incrByFloat now k' d) now' k = c.get now' k := by
  have hfilter := entry?_filter_ne c k k' h
  unfold Cache.incrByFloat
  split
  · unfold Cache.get
    rw [entry?_cons, if_neg (fun he2 => h he2.symm), hfilter]
  · split
    · split
      · unfold Cache.get
        rw [entry?_cons, if_neg (fun he2 => h he2.symm), hfilter]
      · rfl
    · unfold Cache.get
      rw [entry?_cons, if_neg (fun he2 => h he2.symm), hfilter]

end GoServices

namespace GoServices

theorem get_expire_ne (c : Cache) (now now' : Int) (k k' : RKey) (ttl : Int) (h : k ≠ k') :
    Cache.get (c.expire now k' ttl) now' k = c.get now' k := by
  have hfilter := entry?_filter_ne c k k' h
  unfold Cache.expire
  split
  · rfl
  · split
    · unfold Cache.get
      rw [entry?_cons, if_neg (fun he2 => h he2.symm), hfilter]
    · rfl

/-! ## Playtime store (`game/store/playtime_store.go`) -/

/-- Commands queued in a Redis pipeline before `Exec`. -/
inductive RedisCmd where
  | incrByFloat (key : RKey) (d : ℚ)
  | del (key : RKey)
deriving DecidableEq, Repr

/-- Go `redis.Get(...).Result()` yields the raw stored string; numeric
values print back as their decimal string. -/
def RVal.asString : RVal → String
  | RVal.str s => s
  | RVal.num q => toString q

/-- TTL used by `SetPlayerPlaytime` and `IncrementTeamPlaytime` (6 hours,
in seconds). -/
def playtimeTTL : Int := 21600

/-- TTL used by `SetPlayerDeltaPlaytime` (24 hours, in seconds). -/
def deltaTTL : Int := 86400

/-- `PlayerPlaytimeStore.IncrementPlayerPlaytime`
(game/store/playtime_store.go:70-157).  Returns the resulting cache
together with the list of pipelines executed, each pipeline being the
commands queued before its `Exec`.  Plain (non-pipelined) commands are not
listed.  Transcribed branch by branch:
missing delta ⇒ skip; malformed delta ⇒ error; non-positive delta ⇒ plain
`DEL` of the delta key; no team ⇒ pipeline `[INCRBYFLOAT playtime]`;
team present ⇒ pipeline `[INCRBYFLOAT playtime, INCRBYFLOAT team_total]`. -/
def incrementPlayerPlaytime (c : Cache) (now : Int) (uuid : String) :
    Except String (Cache × List (List RedisCmd)) :=
  match c.get now (RKey.deltatime uuid) with
  | none => Except.ok (c, [])
  | some v =>
    match v.asNum with
    | none => Except.error "failed to parse delta playtime value as float"
    | some deltaFloat =>
      if deltaFloat ≤ 0 then
        Except.ok (c.del (RKey.deltatime uuid), [])
      else
        match c.get now (RKey.team uuid) with
        | none =>
          Except.ok
            (c.incrByFloat now (RKey.playtime uuid) deltaFloat,
             [[RedisCmd.incrByFloat (RKey.playtime uuid) deltaFloat]])
        | some tv =>
          Except.ok
            ((c.incrByFloat now (RKey.playtime uuid) deltaFloat).incrByFloat now
               (RKey.teamTotal tv.asString) deltaFloat,
             [[RedisCmd.incrByFloat (RKey.playtime uuid) deltaFloat,
               RedisCmd.incrByFloat (RKey.teamTotal tv.asString) deltaFloat]])

/-- C1: the claim states that for a positive stored delta `d`,
`IncrementPlayerPlaytime` executes `DEL deltatime:{uuid}:` in the same
pipeline as `INCRBYFLOAT playtime:{uuid}: d`, so the delta key is absent
afterwards.  The code does neither: for a positive delta no executed
pipeline contains a `DEL` of the delta key, and the delta key is still
present (with the same value) after the call, so the same delta is
re-consumed on every subsequent tick. -/
theorem incrementPlayerPlaytime_never_deletes_positive_delta
    (c : Cache) (now : Int) (uuid : String) (d : ℚ)
    (hd : c.get now (RKey.deltatime uuid) = some (RVal.num d)) (hpos : 0 < d) :
    ∃ c' pipes, incrementPlayerPlaytime c now uuid = Except.ok (c', pipes) ∧
      c'.get now (RKey.deltatime uuid) = some (RVal.num d) ∧
      ∀ pipe ∈ pipes, RedisCmd.del (RKey.deltatime uuid) ∉ pipe := by
  have hne : ¬ d ≤ 0 := not_le.mpr hpos
  have hnp : RKey.deltatime uuid ≠ RKey.playtime uuid := by simp
  unfold incrementPlayerPlaytime
  rw [hd]
  simp only [RVal.asNum, hne, if_false]
  cases ht : c.get now (RKey.team uuid) with
  | none =>
    refine ⟨_, _, rfl, ?_, ?_⟩
    · rw [get_incr_ne c now now _ _ d hnp, hd]
    · intro pipe hp
      simp at hp
      simp [hp]
  | some tv =>
    refine ⟨_, _, rfl, ?_, ?_⟩
    · have hnt : RKey.deltatime uuid ≠ RKey.teamTotal tv.asString := by simp
      rw [get_incr_ne _ now now _ _ d hnt, get_incr_ne c now now _ _ d hnp, hd]
    · intro pipe hp
      simp at hp
      simp [hp]

/-- Witness for C1's theorem at a concrete input: delta key holds 1. -/
theorem incrementPlayerPlaytime_never_deletes_positive_delta_witness :
    ∃ c' pipes,
      incrementPlayerPlaytime [(RKey.deltatime "u", ⟨RVal.num 1, none⟩)] 0 "u"
        = Except.ok (c', pipes) ∧
      c'.get 0 (RKey.deltatime "u") = some (RVal.num 1) ∧
      ∀ pipe ∈ pipes, RedisCmd.del (RKey.deltatime "u") ∉ pipe :=
  incrementPlayerPlaytime_never_deletes_positive_delta
    [(RKey.deltatime "u", ⟨RVal.num 1, none⟩)] 0 "u" 1 (by rfl) (by norm_num)

end GoServices


namespace GoServices

/-! ## Game service: PlayerOffline (`game/service/game_service.go:101-170`) -/

/-- Step 4 of `PlayerOffline`: if `team:{uuid}:` is present, run
`TeamPlaytimeStore.IncrementTeamPlaytime` (INCRBYFLOAT on
`team_total_playtime:{team}:` followed by a 6 h TTL refresh); otherwise no
cache effect. -/
def offlineTeamStep (c2 : Cache) (now : Int) (uuid : String) (sess : ℚ) : Cache :=
  match c2.get now (RKey.team uuid) with
  | none => c2
  | some tv =>
    (c2.incrByFloat now (RKey.teamTotal tv.asString) sess).expire now
      (RKey.teamTotal tv.asString) playtimeTTL

theorem get_offlineTeamStep_ne (c2 : Cache) (now now' : Int) (uuid : String) (sess : ℚ)
    (k : RKey) (h : ∀ t, k ≠ RKey.teamTotal t) :
    (offlineTeamStep c2 now uuid sess).get now' k = c2.get now' k := by
  unfold offlineTeamStep
  split
  · rfl
  · rw [get_expire_ne _ now now' _ _ _ (h _), get_incr_ne _ now now' _ _ _ (h _)]

/-- `GameService.PlayerOffline`.  Transcription:
1. read the session start from `online:{uuid}:` — on `redis.Nil` the store
   wraps the error, so the `err == redis.Nil` check in `PlayerOffline`
   never fires and the call errors out (the graceful-skip branch is dead
   code);
2. `sessionPlaytime := now − start`;
3. `newTotal := currentTotal + sessionPlaytime` (missing total reads as 0)
   and `SET playtime:{uuid}:` (TTL 6 h) then `SET deltatime:{uuid}:` to
   the session playtime (TTL 24 h);
4. if `team:{uuid}:` is present, `INCRBYFLOAT team_total_playtime:{team}:`
   and refresh its 6 h TTL;
5. `DEL online:{uuid}:`;
6. persist the new total to the Player service (external call, no cache
   effect);
7. `DEL team:{uuid}:`. -/
def playerOffline (c : Cache) (now : Int) (uuid : String) : Except String Cache :=
  match c.get now (RKey.online uuid) with
  | none => Except.error "player is not currently marked as online"
  | some v =>
    match v.asInt with
    | none => Except.error "invalid session start timestamp"
    | some start =>
      let sessionPlaytime : ℚ := ((now - start : Int) : ℚ)
      let currentTotal : ℚ := ((c.get now (RKey.playtime uuid)).bind RVal.asNum).getD 0
      let newTotal := currentTotal + sessionPlaytime
      let c1 := c.set now (RKey.playtime uuid) (RVal.num newTotal) playtimeTTL
      let c2 := c1.set now (RKey.deltatime uuid) (RVal.num sessionPlaytime) deltaTTL
      let c3 := offlineTeamStep c2 now uuid sessionPlaytime
      let c4 := c3.del (RKey.online uuid)
      Except.ok (c4.del (RKey.team uuid))

/-- C3 counterexample: player "u" online since unix second 100, offline at
160.  The call succeeds, yet `playtime:{u}:` and `deltatime:{u}:` are
still present afterwards (they are overwritten, not deleted), refuting
"the four cache keys are all absent". -/
theorem playerOffline_leaves_playtime_and_delta :
    ∃ c', playerOffline [(RKey.online "u", ⟨RVal.num 100, none⟩)] 160 "u" = Except.ok c' ∧
      c'.get 160 (RKey.deltatime "u") ≠ none ∧
      c'.get 160 (RKey.playtime "u") ≠ none := by
  refine ⟨_, rfl, ?_, ?_⟩ <;> decide

/-- C3 amended: after a successful `PlayerOffline`, the `online` and
`team` keys for the uuid are absent, while `playtime:{uuid}:` is
overwritten with the previous total plus the session duration and
`deltatime:{uuid}:` is overwritten with the session duration — neither is
deleted. -/
theorem playerOffline_cleanup (c : Cache) (now : Int) (uuid : String) (v : RVal) (start : Int)
    (hv : c.get now (RKey.online uuid) = some v) (hi : v.asInt = some start) :
    ∃ c', playerOffline c now uuid = Except.ok c' ∧
      c'.get now (RKey.online uuid) = none ∧
      c'.get now (RKey.team uuid) = none ∧
      c'.get now (RKey.playtime uuid) =
        some (RVal.num ((((c.get now (RKey.playtime uuid)).bind RVal.asNum).getD 0)
          + ((now - start : Int) : ℚ))) ∧
      c'.get now (RKey.deltatime uuid) = some (RVal.num ((now - start : Int) : ℚ)) := by
  have hot : RKey.online uuid ≠ RKey.team uuid := by simp
  have hpt : RKey.playtime uuid ≠ RKey.team uuid := by simp
  have hpo : RKey.playtime uuid ≠ RKey.online uuid := by simp
  have hpd : RKey.playtime uuid ≠ RKey.deltatime uuid := by simp
  have hdt : RKey.deltatime uuid ≠ RKey.team uuid := by simp
  have hdo : RKey.deltatime uuid ≠ RKey.online uuid := by simp
  unfold playerOffline
  rw [hv]
  simp only [hi]
  refine ⟨_, rfl, ?_, ?_, ?_, ?_⟩
  · rw [get_del_ne _ now _ _ hot, get_del_eq]
  · rw [get_del_eq]
  · rw [get_del_ne _ now _ _ hpt, get_del_ne _ now _ _ hpo,
      get_offlineTeamStep_ne _ now now _ _ _ (by intro t; simp),
      get_set_ne _ now now _ _ _ _ hpd,
      get_set_eq _ now _ _ _ (Or.inr (by decide))]
  · rw [get_del_ne _ now _ _ hdt, get_del_ne _ now _ _ hdo,
      get_offlineTeamStep_ne _ now now _ _ _ (by intro t; simp),
      get_set_eq _ now _ _ _ (Or.inr (by decide))]

/-- Witness for C3's amended theorem at a concrete input. -/
theorem playerOffline_cleanup_witness :
    ∃ c', playerOffline [(RKey.online "u", ⟨RVal.num 100, none⟩)] 160 "u" = Except.ok c' ∧
      c'.get 160 (RKey.online "u") = none ∧
      c'.get 160 (RKey.team "u") = none ∧
      c'.get 160 (RKey.playtime "u") =
        some (RVal.num ((((Cache.get [(RKey.online "u", ⟨RVal.num 100, none⟩)] 160
          (RKey.playtime "u")).bind RVal.asNum).getD 0) + ((160 - 100 : Int) : ℚ))) ∧
      c'.get 160 (RKey.deltatime "u") = some (RVal.num ((160 - 100 : Int) : ℚ)) :=
  playerOffline_cleanup [(RKey.online "u", ⟨RVal.num 100, none⟩)] 160 "u"
    (RVal.num 100) 100 (by rfl) (by decide)

end GoServices

namespace GoServices

/-! ## Ban store (`game/store/ban_store.go`) -/

/-- `SET` with an explicit absolute expiry (used where the Go code
computes a `time.Duration` itself). -/
def Cache.setExp (c : Cache) (k : RKey) (v : RVal) (exp : Option Int) : Cache :=
  (k, ⟨v, exp⟩) :: c.filter (fun p => !(decide (p.1 = k)))

theorem entry?_setExp_eq (c : Cache) (k : RKey) (v : RVal) (exp : Option Int) :
    Cache.entry? (c.setExp k v exp) k = some ⟨v, exp⟩ := by
  unfold Cache.setExp
  rw [entry?_cons, if_pos rfl]

theorem entry?_setExp_ne (c : Cache) (k k' : RKey) (v : RVal) (exp : Option Int)
    (h : k ≠ k') :
    Cache.entry? (c.setExp k' v exp) k = c.entry? k := by
  unfold Cache.setExp
  rw [entry?_cons, if_neg (fun he => h he.symm), entry?_filter_ne c k k' h]

theorem get_setExp_eq (c : Cache) (now : Int) (k : RKey) (v : RVal) (exp : Option Int) :
    Cache.get (c.setExp k v exp) now k
      = if Entry.live ⟨v, exp⟩ now then some v else none := by
  unfold Cache.get
  rw [entry?_setExp_eq]

theorem get_setExp_ne (c : Cache) (now : Int) (k k' : RKey) (v : RVal) (exp : Option Int)
    (h : k ≠ k') :
    Cache.get (c.setExp k' v exp) now k = c.get now k := by
  unfold Cache.get
  rw [entry?_setExp_ne c k k' v exp h]

/-- `BanStore.BanPlayer` (ban_store.go:40-85).  A temporary ban
(`expiresAt = some t`) stores value `t` with TTL `t − now`; if `t` is
already past, the Go code uses a minimal 1 ms TTL (modelled as an entry
already expired at `now`); at exactly `t = now` the computed duration is
0, which Redis treats as "no TTL".  A permanent ban (`none`) stores value
0 with no TTL.  A non-empty reason is stored under `ban_reason:<uuid>`
with the same TTL. -/
def banPlayer (c : Cache) (now : Int) (uuid : String) (expiresAt : Option Int)
    (reason : String) : Cache :=
  match expiresAt with
  | some t =>
    let exp : Option Int :=
      if t - now < 0 then some now else if t - now = 0 then none else some t
    let c1 := c.setExp (RKey.banned uuid) (RVal.num (t : ℚ)) exp
    if reason = "" then c1 else c1.setExp (RKey.banReason uuid) (RVal.str reason) exp
  | none =>
    let c1 := c.setExp (RKey.banned uuid) (RVal.num 0) none
    if reason = "" then c1 else c1.setExp (RKey.banReason uuid) (RVal.str reason) none

/-- `BanStore.UnbanPlayer` (ban_store.go:88-105): delete the ban and the
reason key. -/
def unbanPlayer (c : Cache) (uuid : String) : Cache :=
  (c.del (RKey.banned uuid)).del (RKey.banReason uuid)

/-- `BanStore.IsPlayerBanned` (ban_store.go:109-143).  Returns the answer
together with the cache after the lazy cleanup the function spawns for an
expired temporary ban.  Missing key or malformed value ⇒ not banned;
value `v > 0` with `now ≥ v` ⇒ expired: not banned and both ban keys are
cleaned up; otherwise banned. -/
def isPlayerBanned (c : Cache) (now : Int) (uuid : String) : Bool × Cache :=
  match c.get now (RKey.banned uuid) with
  | none => (false, c)
  | some v =>
    match v.asInt with
    | none => (false, c)
    | some expiresAtUnix =>
      if 0 < expiresAtUnix ∧ expiresAtUnix ≤ now then
        (false, unbanPlayer c uuid)
      else
        (true, c)

/-- C4: bannedness round-trip.  After `BanPlayer` with a future expiry
`t`, `IsPlayerBanned` answers true at every second from the ban until
`t` and false from `t` on; a permanent ban stores value 0 with no TTL
and always answers true; after `UnbanPlayer` the answer is false. -/
theorem ban_roundtrip (c : Cache) (now t now1 now2 now3 : Int) (uuid r : String)
    (hnow : now < t) (h1a : now ≤ now1) (h1b : now1 < t) (h2 : t ≤ now2) :
    (isPlayerBanned (banPlayer c now uuid (some t) r) now1 uuid).1 = true ∧
    (isPlayerBanned (banPlayer c now uuid (some t) r) now2 uuid).1 = false ∧
    Cache.entry? (banPlayer c now uuid none r) (RKey.banned uuid)
      = some ⟨RVal.num 0, none⟩ ∧
    (isPlayerBanned (banPlayer c now uuid none r) now3 uuid).1 = true ∧
    (isPlayerBanned (unbanPlayer c uuid) now3 uuid).1 = false := by
  have hbr : RKey.banned uuid ≠ RKey.banReason uuid := by simp
  have hneg : ¬ t - now < 0 := by omega
  have hzero : ¬ t - now = 0 := by omega
  have hget : ∀ now' : Int, Cache.get (banPlayer c now uuid (some t) r) now' (RKey.banned uuid)
      = if now' < t then some (RVal.num (t : ℚ)) else none := by
    intro now'
    simp only [banPlayer, hneg, if_false, hzero]
    by_cases hr : r = ""
    · rw [if_pos hr, get_setExp_eq]
      simp [Entry.live]
    · rw [if_neg hr, get_setExp_ne _ _ _ _ _ _ hbr, get_setExp_eq]
      simp [Entry.live]
  refine ⟨?_, ?_, ?_, ?_, ?_⟩
  · rw [isPlayerBanned, hget now1, if_pos h1b]
    simp only [RVal.asInt, Rat.den_intCast, Rat.num_intCast, if_pos rfl]
    have : ¬ (0 < t ∧ t ≤ now1) := by omega
    simp [this]
  · rw [isPlayerBanned, hget now2, if_neg (by omega)]
  · simp only [banPlayer]
    by_cases hr : r = ""
    · rw [if_pos hr, entry?_setExp_eq]
    · rw [if_neg hr, entry?_setExp_ne _ _ _ _ _ hbr, entry?_setExp_eq]
  · have hgetp : Cache.get (banPlayer c now uuid none r) now3 (RKey.banned uuid)
        = some (RVal.num 0) := by
      simp only [banPlayer]
      by_cases hr : r = ""
      · rw [if_pos hr, get_setExp_eq]
        simp [Entry.live]
      · rw [if_neg hr, get_setExp_ne _ _ _ _ _ _ hbr, get_setExp_eq]
        simp [Entry.live]
    rw [isPlayerBanned, hgetp]
    norm_num [RVal.asInt]
  · have hgetn : Cache.get (unbanPlayer c uuid) now3 (RKey.banned uuid) = none := by
      unfold unbanPlayer
      rw [get_del_ne _ _ _ _ (by simp), get_del_eq]
    rw [isPlayerBanned, hgetn]

/-- Witness for C4's theorem: ban "u" at second 0 until second 100;
checks at 50 (banned), 100 (no longer banned), permanent ban checked at
7, unban checked at 7. -/
theorem ban_roundtrip_witness :
    (isPlayerBanned (banPlayer [] 0 "u" (some 100) "cheating") 50 "u").1 = true ∧
    (isPlayerBanned (banPlayer [] 0 "u" (some 100) "cheating") 100 "u").1 = false ∧
    Cache.entry? (banPlayer [] 0 "u" none "cheating") (RKey.banned "u")
      = some ⟨RVal.num 0, none⟩ ∧
    (isPlayerBanned (banPlayer [] 0 "u" none "cheating") 7 "u").1 = true ∧
    (isPlayerBanned (unbanPlayer [] "u") 7 "u").1 = false :=
  ban_roundtrip [] 0 100 50 100 7 "u" "cheating"
    (by norm_num) (by norm_num) (by norm_num) (by norm_num)

end GoServices

namespace GoServices

/-! ## Game service: PlayerOnline (`game/service/game_service.go:49-98`) -/

/-- The player profile fields `PlayerOnline` reads from the Player
service response. -/
structure PlayerProfile where
  totalPlaytime : ℚ
  team : String
deriving DecidableEq, Repr

/-- `GameService.PlayerOnline`.  `profile = none` stands for a failed or
not-found `GetPlayerProfile` call.  Transcription:
1. reject when `IsPlayerBanned` answers true (the lazy-cleanup cache it
   returns is threaded through);
2. profile missing/error ⇒ `SET playtime = 0` (TTL 6 h), `SET deltatime
   = 1` (TTL 24 h), no team write; profile found ⇒ `SET playtime` to the
   profile total, `SET deltatime = 1`, and `SET team` (no TTL) when the
   profile's team is non-empty;
3. `SetPlayerOnline`: `SET online = now` with TTL `onlineTTL`. -/
def playerOnline (c : Cache) (now onlineTTL : Int) (uuid : String)
    (profile : Option PlayerProfile) : Except String Cache :=
  if (isPlayerBanned c now uuid).1 then
    Except.error "player is currently banned and cannot go online"
  else
    let c0 := (isPlayerBanned c now uuid).2
    match profile with
    | none =>
      let c1 := c0.set now (RKey.playtime uuid) (RVal.num 0) playtimeTTL
      let c2 := c1.set now (RKey.deltatime uuid) (RVal.num 1) deltaTTL
      Except.ok (c2.set now (RKey.online uuid) (RVal.num (now : ℚ)) onlineTTL)
    | some p =>
      let c1 := c0.set now (RKey.playtime uuid) (RVal.num p.totalPlaytime) playtimeTTL
      let c2 := c1.set now (RKey.deltatime uuid) (RVal.num 1) deltaTTL
      let c3 := if p.team = "" then c2 else c2.set now (RKey.team uuid) (RVal.str p.team) 0
      Except.ok (c3.set now (RKey.online uuid) (RVal.num (now : ℚ)) onlineTTL)

/-- C5: for a non-banned player, `PlayerOnline` initializes the cache
with total 0 / delta 1 and no team write when the profile is missing or
errored, copies the total and writes the team mapping when the profile is
found (team written only when non-empty), and finally sets the online
key. -/
theorem playerOnline_initializes (c : Cache) (now onlineTTL : Int) (uuid : String)
    (profile : Option PlayerProfile)
    (hban : (isPlayerBanned c now uuid).1 = false) (httl : 0 < onlineTTL) :
    ∃ c', playerOnline c now onlineTTL uuid profile = Except.ok c' ∧
      c'.get now (RKey.playtime uuid) =
        some (RVal.num ((profile.map PlayerProfile.totalPlaytime).getD 0)) ∧
      c'.get now (RKey.deltatime uuid) = some (RVal.num 1) ∧
      c'.get now (RKey.online uuid) = some (RVal.num (now : ℚ)) ∧
      c'.get now (RKey.team uuid) =
        (match profile with
         | none => Cache.get (isPlayerBanned c now uuid).2 now (RKey.team uuid)
         | some p =>
           if p.team = "" then Cache.get (isPlayerBanned c now uuid).2 now (RKey.team uuid)
           else some (RVal.str p.team)) := by
  have hpo : RKey.playtime uuid ≠ RKey.online uuid := by simp
  have hpd : RKey.playtime uuid ≠ RKey.deltatime uuid := by simp
  have hpt : RKey.playtime uuid ≠ RKey.team uuid := by simp
  have hdo : RKey.deltatime uuid ≠ RKey.online uuid := by simp
  have hdt : RKey.deltatime uuid ≠ RKey.team uuid := by simp
  have hto : RKey.team uuid ≠ RKey.online uuid := by simp
  have hop : RKey.online uuid ≠ RKey.playtime uuid := by simp
  cases profile with
  | none =>
    simp only [playerOnline, hban, Bool.false_eq_true, if_false, Option.map_none,
      Option.getD_none]
    refine ⟨_, rfl, ?_, ?_, ?_, ?_⟩
    · rw [get_set_ne _ now now _ _ _ _ hpo, get_set_ne _ now now _ _ _ _ hpd,
        get_set_eq _ now _ _ _ (Or.inr (by decide))]
      rfl
    · rw [get_set_ne _ now now _ _ _ _ hdo,
        get_set_eq _ now _ _ _ (Or.inr (by decide))]
    · rw [get_set_eq _ now _ _ _ (Or.inr httl)]
    · rw [get_set_ne _ now now _ _ _ _ hto, get_set_ne _ now now _ _ _ _ hdt.symm,
        get_set_ne _ now now _ _ _ _ hpt.symm]
  | some p =>
    simp only [playerOnline, hban, Bool.false_eq_true, if_false, Option.map_some,
      Option.getD_some]
    by_cases hteam : p.team = ""
    · rw [if_pos hteam, if_pos hteam]
      refine ⟨_, rfl, ?_, ?_, ?_, ?_⟩
      · rw [get_set_ne _ now now _ _ _ _ hpo, get_set_ne _ now now _ _ _ _ hpd,
          get_set_eq _ now _ _ _ (Or.inr (by decide))]
        rfl
      · rw [get_set_ne _ now now _ _ _ _ hdo,
          get_set_eq _ now _ _ _ (Or.inr (by decide))]
      · rw [get_set_eq _ now _ _ _ (Or.inr httl)]
      · rw [get_set_ne _ now now _ _ _ _ hto, get_set_ne _ now now _ _ _ _ hdt.symm,
          get_set_ne _ now now _ _ _ _ hpt.symm]
    · rw [if_neg hteam, if_neg hteam]
      refine ⟨_, rfl, ?_, ?_, ?_, ?_⟩
      · rw [get_set_ne _ now now _ _ _ _ hpo, get_set_ne _ now now _ _ _ _ hpt,
          get_set_ne _ now now _ _ _ _ hpd, get_set_eq _ now _ _ _ (Or.inr (by decide))]
        rfl
      · rw [get_set_ne _ now now _ _ _ _ hdo, get_set_ne _ now now _ _ _ _ hdt,
          get_set_eq _ now _ _ _ (Or.inr (by decide))]
      · rw [get_set_eq _ now _ _ _ (Or.inr httl)]
      · rw [get_set_ne _ now now _ _ _ _ hto,
          get_set_eq _ now _ _ _ (Or.inl rfl)]

/-- Witness for C5's theorem: missing profile on an empty cache. -/
theorem playerOnline_initializes_witness :
    ∃ c', playerOnline [] 5 300 "u" none = Except.ok c' ∧
      c'.get 5 (RKey.playtime "u") =
        some (RVal.num (((none : Option PlayerProfile).map PlayerProfile.totalPlaytime).getD 0)) ∧
      c'.get 5 (RKey.deltatime "u") = some (RVal.num 1) ∧
      c'.get 5 (RKey.online "u") = some (RVal.num ((5 : Int) : ℚ)) ∧
      c'.get 5 (RKey.team "u") =
        (match (none : Option PlayerProfile) with
         | none => Cache.get (isPlayerBanned [] 5 "u").2 5 (RKey.team "u")
         | some p =>
           if p.team = "" then Cache.get (isPlayerBanned [] 5 "u").2 5 (RKey.team "u")
           else some (RVal.str p.team)) :=
  playerOnline_initializes [] 5 300 "u" none (by rfl) (by norm_num)

/-! ## Delta read path (`game_service.go:197-205`, handler part_008) -/

/-- Outcomes of the raw cache read behind
`PlayerPlaytimeStore.GetPlayerDeltaPlaytime`. -/
inductive CacheReadErr where
  | notFound
  | failure (msg : String)
deriving DecidableEq, Repr

/-- `PlayerPlaytimeStore.GetPlayerDeltaPlaytime`
(playtime_store.go:229-242): `cacheOK = false` injects a transport-level
cache failure; `redis.Nil` becomes the wrapped `ErrRedisKeyNotFound`; a
non-numeric stored value fails the `Float64` conversion. -/
def storeGetPlayerDeltaPlaytime (c : Cache) (now : Int) (uuid : String)
    (cacheOK : Bool) : Except CacheReadErr ℚ :=
  if !cacheOK then Except.error (CacheReadErr.failure "cache unavailable")
  else
    match c.get now (RKey.deltatime uuid) with
    | none => Except.error CacheReadErr.notFound
    | some v =>
      match v.asNum with
      | none => Except.error (CacheReadErr.failure "float conversion")
      | some q => Except.ok q

/-- `GameService.GetPlayerDeltaPlaytime` (game_service.go:197-205): every
store error — not only not-found — is swallowed and 1.0 is returned with
no error. -/
def serviceGetPlayerDeltaPlaytime (c : Cache) (now : Int) (uuid : String)
    (cacheOK : Bool) : ℚ :=
  match storeGetPlayerDeltaPlaytime c now uuid cacheOK with
  | Except.error _ => 1
  | Except.ok v => v

/-- `GameAPIHandlers.GetPlayerDeltaPlaytime` (part_008:203-227): invalid
uuid ⇒ 400 with no body value; otherwise 200 with the service result
(the service call cannot fail). -/
def handleGetPlayerDeltaPlaytime (c : Cache) (now : Int) (uuid : String)
    (cacheOK validUUID : Bool) : Nat × Option ℚ :=
  if !validUUID then (400, none)
  else (200, some (serviceGetPlayerDeltaPlaytime c now uuid cacheOK))

/-- C10: whenever the store read fails — key missing, malformed value or
cache unavailable — the service returns 1.0 with no error and the
endpoint answers 200 with deltatime 1.0, never a 5xx. -/
theorem getPlayerDeltaPlaytime_default_on_any_error
    (c : Cache) (now : Int) (uuid : String) (cacheOK : Bool) (e : CacheReadErr)
    (herr : storeGetPlayerDeltaPlaytime c now uuid cacheOK = Except.error e) :
    serviceGetPlayerDeltaPlaytime c now uuid cacheOK = 1 ∧
    handleGetPlayerDeltaPlaytime c now uuid cacheOK true = (200, some 1) := by
  constructor
  · rw [serviceGetPlayerDeltaPlaytime, herr]
  · rw [handleGetPlayerDeltaPlaytime]
    simp only [Bool.not_true, if_neg (by simp : ¬ (false = true))]
    rw [serviceGetPlayerDeltaPlaytime, herr]

/-- Witness for C10's theorem: the cache call itself fails (not a
missing key), yet the endpoint still answers 200 with 1.0. -/
theorem getPlayerDeltaPlaytime_default_on_any_error_witness :
    serviceGetPlayerDeltaPlaytime [] 0 "u" false = 1 ∧
    handleGetPlayerDeltaPlaytime [] 0 "u" false true = (200, some 1) :=
  getPlayerDeltaPlaytime_default_on_any_error [] 0 "u" false
    (CacheReadErr.failure "cache unavailable") (by rfl)

end GoServices

namespace GoServices

/-! ## Service registry (`shared/registry/registrar.go` and
`RegistryClient.GetActiveServices`) -/

/-- The `ServiceInfo` field the freshness filter uses (`LastSeen`). -/
structure ServiceInfo where
  lastSeen : Int
deriving DecidableEq, Repr

/-- The registry hash `services:<type>`: instance id → descriptor. -/
abbrev Registry := List (String × ServiceInfo)

def Registry.lookup? (reg : Registry) (id : String) : Option ServiceInfo :=
  (reg.find? (fun p => decide (p.1 = id))).map Prod.snd

/-- `ServiceRegistrar.registerService` (registrar.go:93-120): `HSET`s the
descriptor with `LastSeen: time.Now().Unix()` — unix SECONDS.  `nowMs` is
the wall clock in milliseconds, so the stored value is `nowMs / 1000`. -/
def registerService (reg : Registry) (nowMs : Int) (instanceID : String) : Registry :=
  (instanceID, ⟨nowMs / 1000⟩) :: reg.filter (fun p => !(decide (p.1 = instanceID)))

/-- `RegistryClient.GetActiveServices` (part_010:34-57): keeps entries
with `currentTime.Sub(time.UnixMilli(info.LastSeen)) ≤ serviceTimeout`,
i.e. it re-reads the stored `LastSeen` as MILLISECONDS.  `timeoutMs` is
the `serviceTimeout` (wired to `HeartbeatTTL` by the callers) in
milliseconds. -/
def getActiveServices (reg : Registry) (nowMs timeoutMs : Int) : Registry :=
  reg.filter (fun p => decide (nowMs - p.2.lastSeen ≤ timeoutMs))

theorem lookup?_filter_out (reg : Registry) (id : String)
    (pr : String × ServiceInfo → Bool)
    (h : ∀ e : ServiceInfo, pr (id, e) = false) :
    Registry.lookup? (reg.filter pr) id = none := by
  induction reg with
  | nil => rfl
  | cons hd tl ih =>
    rcases hd with ⟨kh, eh⟩
    by_cases hk : kh = id
    · subst hk
      rw [List.filter_cons, h eh, if_neg (by simp : ¬ (false = true))]
      exact ih
    · rw [List.filter_cons]
      cases hket : pr (kh, eh) with
      | false =>
        rw [if_neg (by simp : ¬ (false = true))]
        exact ih
      | true =>
        rw [if_pos rfl]
        simp only [Registry.lookup?, List.find?]
        have : (decide ((kh, eh).1 = id)) = false := by simp [hk]
        rw [this]
        exact ih

/-- C2: the claim asserts that an instance registered less than
`HeartbeatTTL` ago is returned by `getActive`, the reader filtering in
the same unit the registrar wrote.  The registrar writes `LastSeen` in
unix seconds while the reader parses it with `UnixMilli`; for any
realistic clock (`wMs ≥ 1000·timeoutMs`) the entry's apparent age exceeds
the timeout no matter how recent the write, so the freshly registered
instance is absent from every `GetActiveServices` result. -/
theorem getActiveServices_drops_fresh_registration
    (reg : Registry) (wMs rMs timeoutMs : Int) (id : String)
    (hw : 1000 * timeoutMs ≤ wMs) (ht : 0 < timeoutMs) (hr : wMs ≤ rMs) :
    Registry.lookup? (getActiveServices (registerService reg wMs id) rMs timeoutMs) id
      = none := by
  unfold registerService getActiveServices
  rw [List.filter_cons]
  have hstale : (decide (rMs - (⟨wMs / 1000⟩ : ServiceInfo).lastSeen ≤ timeoutMs)) = false := by
    simp only [decide_eq_false_iff_not, not_le]
    omega
  rw [hstale, if_neg (by simp : ¬ (false = true)), List.filter_filter]
  exact lookup?_filter_out reg id _ (fun e => by simp)

/-- Witness for C2's theorem: heartbeat written at unix time 1760140800 s
(wall clock 1760140800000 ms), `GetActiveServices` one second later with
a 15 s (`15000` ms) HeartbeatTTL: the instance is missing. -/
theorem getActiveServices_drops_fresh_registration_witness :
    Registry.lookup?
      (getActiveServices (registerService [] 1760140800000 "game-service-1")
        1760140801000 15000) "game-service-1" = none :=
  getActiveServices_drops_fresh_registration [] 1760140800000 1760140801000 15000
    "game-service-1" (by norm_num) (by norm_num) (by norm_num)

/-! ## Assignment manager (`shared/cluster/assignment_manager.go`) -/

/-- Virtual nodes of the stathat `consistent` ring: each member is
inserted under `replicas` hashed element keys `<i><member>`; `hash`
abstracts the library's CRC32-based hash. -/
def virtualNodes (hash : String → Nat) (replicas : Nat) (members : List String) :
    List (Nat × String) :=
  members.flatMap (fun m =>
    (List.range replicas).map (fun i => (hash (toString i ++ m), m)))

def insertNode (p : Nat × String) : List (Nat × String) → List (Nat × String)
  | [] => [p]
  | q :: qs => if p.1 ≤ q.1 then p :: q :: qs else q :: insertNode p qs

def sortNodes : List (Nat × String) → List (Nat × String)
  | [] => []
  | p :: ps => insertNode p (sortNodes ps)

theorem mem_insertNode (a p : Nat × String) (l : List (Nat × String)) :
    a ∈ insertNode p l → a = p ∨ a ∈ l := by
  induction l with
  | nil =>
    intro h
    simp only [insertNode, List.mem_singleton] at h
    exact Or.inl h
  | cons q qs ih =>
    intro h
    unfold insertNode at h
    by_cases hle : p.1 ≤ q.1
    · rw [if_pos hle] at h
      rcases List.mem_cons.mp h with h | h
      · exact Or.inl h
      · exact Or.inr h
    · rw [if_neg hle] at h
      rcases List.mem_cons.mp h with h | h
      · exact Or.inr (h ▸ List.mem_cons_self q qs)
      · rcases ih h with h2 | h2
        · exact Or.inl h2
        · exact Or.inr (List.mem_cons_of_mem q h2)

theorem mem_sortNodes (a : Nat × String) (l : List (Nat × String)) :
    a ∈ sortNodes l → a ∈ l := by
  induction l with
  | nil => intro h; exact absurd h (by simp [sortNodes])
  | cons p ps ih =>
    intro h
    rcases mem_insertNode a p (sortNodes ps) h with h2 | h2
    · exact h2 ▸ List.mem_cons_self p ps
    · exact List.mem_cons_of_mem p (ih h2)

theorem insertNode_ne_nil (p : Nat × String) (l : List (Nat × String)) :
    insertNode p l ≠ [] := by
  cases l with
  | nil => simp [insertNode]
  | cons q qs =>
    unfold insertNode
    by_cases hle : p.1 ≤ q.1
    · rw [if_pos hle]; simp
    · rw [if_neg hle]; simp

/-- `consistent.Get`: hash the key, walk the sorted circle to the first
virtual node at or past the key's hash, wrapping to the smallest node. -/
def consistentGet (hash : String → Nat) (replicas : Nat) (members : List String)
    (key : String) : Option String :=
  let sorted := sortNodes (virtualNodes hash replicas members)
  match sorted.find? (fun p => decide (hash key ≤ p.1)) with
  | some p => some p.2
  | none => sorted.head?.map Prod.snd

/-- The mutable state of `ServiceAssignmentManager`: its own id and the
current ring membership. -/
structure AssignmentManager where
  selfID : String
  members : List String
deriving DecidableEq, Repr

/-- `NewServiceAssignmentManager` (part_012:71-95): the fresh ring
contains exactly this instance's own service id (`consistentHash.Add`
before any registry-driven rebuild). -/
def newServiceAssignmentManager (selfID : String) : AssignmentManager :=
  ⟨selfID, [selfID]⟩

/-- `ServiceAssignmentManager.IsResponsible` (part_012:157-175). -/
def isResponsible (hash : String → Nat) (replicas : Nat) (am : AssignmentManager)
    (entityID : String) : Except String Bool :=
  if am.members.isEmpty then Except.error "consistent hash ring is empty"
  else
    match consistentGet hash replicas am.members entityID with
    | none => Except.error "failed to get responsible service"
    | some owner => Except.ok (decide (owner = am.selfID))

theorem consistentGet_single (hash : String → Nat) (replicas : Nat) (selfID key : String)
    (hrep : 0 < replicas) :
    consistentGet hash replicas [selfID] key = some selfID := by
  have hall : ∀ a ∈ virtualNodes hash replicas [selfID], a.2 = selfID := by
    intro a ha
    simp only [virtualNodes, List.flatMap, List.mem_flatten, List.mem_map] at ha
    rcases ha with ⟨l, ⟨m, hm, hl⟩, hal⟩
    simp only [List.mem_singleton] at hm
    subst hm
    rw [← hl] at hal
    simp only [List.mem_map] at hal
    rcases hal with ⟨i, _, hai⟩
    rw [← hai]
  have hne : virtualNodes hash replicas [selfID] ≠ [] := by
    simp only [virtualNodes, List.flatMap]
    intro hcon
    have : (hash (toString 0 ++ selfID), selfID) ∈ ([selfID].map
        (fun m => (List.range replicas).map (fun i => (hash (toString i ++ m), m)))).flatten := by
      simp only [List.mem_flatten, List.mem_map]
      exact ⟨_, ⟨selfID, List.mem_singleton_self _, rfl⟩, by
        simp only [List.mem_map]
        exact ⟨0, List.mem_range.mpr hrep, rfl⟩⟩
    rw [hcon] at this
    exact absurd this (List.not_mem_nil _)
  unfold consistentGet
  have hsne : sortNodes (virtualNodes hash replicas [selfID]) ≠ [] := by
    cases hv : virtualNodes hash replicas [selfID] with
    | nil => exact absurd hv hne
    | cons p ps => exact insertNode_ne_nil p (sortNodes ps)
  cases hf : (sortNodes (virtualNodes hash replicas [selfID])).find?
      (fun p => decide (hash key ≤ p.1)) with
  | some p =>
    simp only [hf]
    have hp := List.mem_of_find?_eq_some hf
    rw [hall p (mem_sortNodes p _ hp)]
  | none =>
    simp only [hf]
    cases hh : (sortNodes (virtualNodes hash replicas [selfID])).head? with
    | none => exact absurd (List.head?_eq_none_iff.mp hh) hsne
    | some p =>
      have hp : p ∈ sortNodes (virtualNodes hash replicas [selfID]) :=
        List.mem_of_mem_head? hh
      show some p.2 = some selfID
      rw [hall p (mem_sortNodes p _ hp)]

/-- C9: from construction until the first registry-driven rebuild, the
ring holds exactly the instance's own id, so `IsResponsible` answers true
for every key — including the global sync sentinel. -/
theorem isResponsible_always_true_on_fresh_manager
    (hash : String → Nat) (replicas : Nat) (selfID key : String) (hrep : 0 < replicas) :
    isResponsible hash replicas (newServiceAssignmentManager selfID) key
      = Except.ok true := by
  unfold isResponsible newServiceAssignmentManager
  simp only [List.isEmpty_cons, if_neg (by simp : ¬ (false = true))]
  rw [consistentGet_single hash replicas selfID key hrep]
  simp

/-- Witness for C9's theorem: a concrete hash (string length), the
library's 20 replicas, a fresh manager, and the sync sentinel key. -/
theorem isResponsible_always_true_on_fresh_manager_witness :
    isResponsible (fun s => s.length) 20 (newServiceAssignmentManager "game-service-1")
      "global_playtime_sync_task" = Except.ok true :=
  isResponsible_always_true_on_fresh_manager (fun s => s.length) 20 "game-service-1"
    "global_playtime_sync_task" (by norm_num)

end GoServices

namespace GoServices

/-! ## Playtime syncer (`game/syncer/playtime_syncer.go`) -/

/-- `PlayerPlaytimeStore.GetAllPlayerPlaytimes`
(playtime_store.go:161-208): cluster-wide SCAN of `playtime:{*}:`; for
each key the value is fetched with `.Float64()`, skipping unreadable
values; expired keys are not returned by the scan. -/
def getAllPlayerPlaytimes (c : Cache) (now : Int) : List (String × ℚ) :=
  c.foldr (fun p acc =>
    match p with
    | (RKey.playtime uuid, e) =>
      if e.live now then
        match e.val.asNum with
        | some q => (uuid, q) :: acc
        | none => acc
      else acc
    | _ => acc) []

/-- One `performGlobalSync` cycle's outcome: the cache afterwards and the
`UpdatePlayerPlaytime(uuid, total)` calls pushed to the Player service. -/
structure SyncResult where
  cache : Cache
  backups : List (String × ℚ)
deriving DecidableEq, Repr

/-- `PlaytimeSyncer.performGlobalSync` (part_007:91-182).  `isLeader` is
the outcome of `IsResponsible("global_playtime_sync_task")`; `syncResp`
the `SyncTeamTotals` response (`none` = call failed).  A leadership-check
error or a false answer ⇒ no backup and no team write.  Leader ⇒ back up
every scanned playtime (the loop continues past per-player failures),
then on a successful sync overwrite `team_total_playtime:{team}:`
(`SetTeamPlaytime`: SET with no TTL) for each returned pair. -/
def performGlobalSync (c : Cache) (now : Int) (isLeader : Except String Bool)
    (syncResp : Option (List (String × ℚ))) : SyncResult :=
  match isLeader with
  | Except.error _ => ⟨c, []⟩
  | Except.ok false => ⟨c, []⟩
  | Except.ok true =>
    let backups := getAllPlayerPlaytimes c now
    match syncResp with
    | none => ⟨c, backups⟩
    | some totals =>
      ⟨totals.foldl (fun acc tp => acc.set now (RKey.teamTotal tp.1) (RVal.num tp.2) 0) c,
       backups⟩

theorem foldl_setTeam_get_other (now : Int) (totals : List (String × ℚ)) (k : RKey)
    (h : ∀ tp ∈ totals, RKey.teamTotal tp.1 ≠ k) :
    ∀ c : Cache,
      (totals.foldl (fun acc tp => acc.set now (RKey.teamTotal tp.1) (RVal.num tp.2) 0) c).get
        now k = c.get now k := by
  induction totals with
  | nil => intro c; rfl
  | cons tp tps ih =>
    intro c
    rw [List.foldl_cons]
    rw [ih (fun q hq => h q (List.mem_cons_of_mem tp hq))]
    exact get_set_ne c now now k (RKey.teamTotal tp.1) (RVal.num tp.2) 0
      (fun he => h tp (List.mem_cons_self tp tps) he.symm)

theorem foldl_setTeam_get_mem (now : Int) (totals : List (String × ℚ))
    (team : String) (q : ℚ)
    (hmem : (team, q) ∈ totals) (hnodup : (totals.map Prod.fst).Nodup) :
    ∀ c : Cache,
      (totals.foldl (fun acc tp => acc.set now (RKey.teamTotal tp.1) (RVal.num tp.2) 0) c).get
        now (RKey.teamTotal team) = some (RVal.num q) := by
  induction totals with
  | nil => exact absurd hmem (List.not_mem_nil _)
  | cons tp tps ih =>
    intro c
    rw [List.foldl_cons]
    rcases List.mem_cons.mp hmem with heq | hmemtl
    · subst heq
      have hrest : ∀ tp' ∈ tps, RKey.teamTotal tp'.1 ≠ RKey.teamTotal team := by
        intro tp' htp' hcon
        have h1 : tp'.1 = team := by injection hcon
        rw [List.map_cons] at hnodup
        have hni := (List.nodup_cons.mp hnodup).1
        have hmem2 : tp'.1 ∈ tps.map Prod.fst := List.mem_map_of_mem Prod.fst htp'
        rw [h1] at hmem2
        exact hni hmem2
      rw [foldl_setTeam_get_other now tps (RKey.teamTotal team) hrest]
      exact get_set_eq c now (RKey.teamTotal team) (RVal.num q) 0 (Or.inl rfl)
    · have hnodup' : (tps.map Prod.fst).Nodup := by
        rw [List.map_cons] at hnodup
        exact (List.nodup_cons.mp hnodup).2
      exact ih hmemtl hnodup' _

/-- C6: `performGlobalSync` is gated on the leadership check.  A
leadership error or a non-leader answer produces no backup and no cache
write; a leader backs up exactly the scanned playtime snapshot and, when
the team sync succeeds, overwrites each returned team total in the
cache. -/
theorem performGlobalSync_leader_gated
    (c : Cache) (now : Int) (e : String) (syncResp : Option (List (String × ℚ)))
    (totals : List (String × ℚ)) (team : String) (q : ℚ)
    (hmem : (team, q) ∈ totals) (hnodup : (totals.map Prod.fst).Nodup) :
    performGlobalSync c now (Except.error e) syncResp = ⟨c, []⟩ ∧
    performGlobalSync c now (Except.ok false) syncResp = ⟨c, []⟩ ∧
    (performGlobalSync c now (Except.ok true) syncResp).backups
      = getAllPlayerPlaytimes c now ∧
    (performGlobalSync c now (Except.ok true) (some totals)).cache.get now
      (RKey.teamTotal team) = some (RVal.num q) := by
  refine ⟨rfl, rfl, ?_, ?_⟩
  · cases syncResp <;> rfl
  · exact foldl_setTeam_get_mem now totals team q hmem hnodup c

/-- Witness for C6's theorem: one player playtime in the cache and one
team total in the sync response. -/
theorem performGlobalSync_leader_gated_witness :
    performGlobalSync [(RKey.playtime "u", ⟨RVal.num 5, none⟩)] 0 (Except.error "ring empty")
      (some [("AQUA_CREEPERS", 9)]) = ⟨[(RKey.playtime "u", ⟨RVal.num 5, none⟩)], []⟩ ∧
    performGlobalSync [(RKey.playtime "u", ⟨RVal.num 5, none⟩)] 0 (Except.ok false)
      (some [("AQUA_CREEPERS", 9)]) = ⟨[(RKey.playtime "u", ⟨RVal.num 5, none⟩)], []⟩ ∧
    (performGlobalSync [(RKey.playtime "u", ⟨RVal.num 5, none⟩)] 0 (Except.ok true)
      (some [("AQUA_CREEPERS", 9)])).backups
      = getAllPlayerPlaytimes [(RKey.playtime "u", ⟨RVal.num 5, none⟩)] 0 ∧
    (performGlobalSync [(RKey.playtime "u", ⟨RVal.num 5, none⟩)] 0 (Except.ok true)
      (some [("AQUA_CREEPERS", 9)])).cache.get 0 (RKey.teamTotal "AQUA_CREEPERS")
      = some (RVal.num 9) :=
  performGlobalSync_leader_gated [(RKey.playtime "u", ⟨RVal.num 5, none⟩)] 0 "ring empty"
    (some [("AQUA_CREEPERS", 9)]) [("AQUA_CREEPERS", 9)] "AQUA_CREEPERS" 9
    (List.mem_singleton_self _) (by simp)

end GoServices

namespace GoServices

/-! ## Player service: CreateProfile (`player/service/player_service.go`) -/

/-- `strings.Split(s, "_")` at the character level (`Split` always
returns at least one segment). -/
def splitUnderscore : List Char → List (List Char)
  | [] => [[]]
  | c :: cs =>
    if c = '_' then [] :: splitUnderscore cs
    else
      match splitUnderscore cs with
      | [] => [[c]]
      | p :: ps => (c :: p) :: ps

/-- `strings.TrimSuffix(l, "s")`: drop one trailing `s` when present. -/
def trimSuffixS (l : List Char) : List Char :=
  match l.getLast? with
  | some c => if c = 's' then l.dropLast else l
  | none => l

/-- `generateTeamUsername`'s base-name derivation
(player_service.go:51-78): fixed table for the two known teams, otherwise
lower-case the last underscore-segment, trim one trailing "s", and
capitalize the first character; "Player" when that leaves nothing. -/
def creatureBaseName (teamName : String) : String :=
  if teamName = "AQUA_CREEPERS" then "Creeper"
  else if teamName = "PURPLE_AXOLOTLS" then "Axolotl"
  else
    match (splitUnderscore teamName.data).getLast? with
    | none => "Player"
    | some lastRaw =>
      let trimmed := trimSuffixS (lastRaw.map Char.toLower)
      match trimmed with
      | [] => "Player"
      | ch :: cs => String.mk (ch.toUpper :: cs)

/-- Modelled from the spec: `TeamStore.IncrementTeamPlayerCountAndGet`
is called by `generateTeamUsername` but is absent from the sources (the
store only has `IncrementTeamPlayerCount` without a read-back); per the
spec, "Atomically increment that team's `player_count` and read the new
value `N`".  `counts` is the current `player_count` column of the team
documents; the call returns the post-increment value. -/
def incrementTeamPlayerCountAndGet (counts : String → Int) (team : String) : Int :=
  counts team + 1

/-- `PlayerService.generateTeamUsername` (player_service.go:43-81):
`<CreatureBaseName(team)><N>` with `N` the post-increment count. -/
def generateTeamUsername (counts : String → Int) (teamName : String) : String :=
  creatureBaseName teamName ++ toString (incrementTeamPlayerCountAndGet counts teamName)

/-- The per-team count read in the snapshot loop: `-1` marks a
`GetTeamPlayerCount` failure (player_service.go:111-117). -/
def cntOf (counts : String → Int) (readable : String → Bool) (t : String) : Int :=
  if readable t then counts t else -1

/-- The least-populated selection loop of `CreateProfile`
(player_service.go:104-133): running state is `(minPlayers, candidates)`
starting from `(-1, [])`; errored teams are skipped; a strictly smaller
count resets the candidate list, an equal count appends. -/
def leastStep (counts : String → Int) (readable : String → Bool)
    (st : Int × List String) (team : String) : Int × List String :=
  let cnt := cntOf counts readable team
  if cnt = -1 then st
  else if st.1 = -1 ∨ cnt < st.1 then (cnt, [team])
  else if cnt = st.1 then (st.1, st.2 ++ [team])
  else st

def leastPopulatedTeams (teams : List String) (counts : String → Int)
    (readable : String → Bool) : List String :=
  (teams.foldl (leastStep counts readable) ((-1 : Int), ([] : List String))).2

/-- The fallback pair used when the team list is empty or every count
read failed (player_service.go:101,140). -/
def fallbackTeams : List String := ["AQUA_CREEPERS", "PURPLE_AXOLOTLS"]

/-- `leastPopulatedTeams[rand.Intn(len)]` with the random draw passed in. -/
def pickUniform (l : List String) (pick : Nat) : String :=
  l.getD (pick % l.length) ""

/-- The team-assignment phase of `CreateProfile`
(player_service.go:97-143): a failed `GetAllTeams` (`allTeamsRes = none`)
substitutes the fallback pair; an empty candidate set falls back to a
random pick from the fixed pair. -/
def chooseAssignedTeam (allTeamsRes : Option (List String)) (counts : String → Int)
    (readable : String → Bool) (pick pickFallback : Nat) : String :=
  let allTeams := allTeamsRes.getD fallbackTeams
  let least := leastPopulatedTeams allTeams counts readable
  if least.isEmpty then pickUniform fallbackTeams pickFallback
  else pickUniform least pick

/-- The profile document `CreateProfile` inserts
(player_service.go:152-162). -/
structure Player where
  uuid : String
  username : String
  teamUsername : String
  team : String
  currentPlaytime : ℚ
  deltaPlaytime : ℚ
  banned : Bool
deriving DecidableEq, Repr

/-- `PlayerService.CreateProfile` (player_service.go:84-191) for a uuid
with no existing profile: assign the least-populated team, build the team
username from the post-increment count, and insert the profile with empty
username, totals 0, delta 1. -/
def createProfile (uuid : String) (allTeamsRes : Option (List String))
    (counts : String → Int) (readable : String → Bool) (pick pickFallback : Nat) :
    Player :=
  let assignedTeam := chooseAssignedTeam allTeamsRes counts readable pick pickFallback
  { uuid := uuid, username := "",
    teamUsername := generateTeamUsername counts assignedTeam,
    team := assignedTeam,
    currentPlaytime := 0, deltaPlaytime := 1, banned := false }

end GoServices

namespace GoServices

/-- Invariant of the least-populated fold: either nothing readable has
been seen (`minPlayers` still `-1`, no candidates), or the candidates are
exactly processed teams attaining the running minimum of the readable
counts. -/
def LeastInv (counts : String → Int) (readable : String → Bool)
    (processed : List String) (st : Int × List String) : Prop :=
  (st.1 = -1 ∧ st.2 = [] ∧ ∀ t ∈ processed, readable t = false)
  ∨ (0 ≤ st.1 ∧ st.2 ≠ [] ∧
      (∀ m ∈ st.2, m ∈ processed ∧ readable m = true ∧ counts m = st.1) ∧
      (∀ t ∈ processed, readable t = true → st.1 ≤ counts t))

theorem leastStep_inv (counts : String → Int) (readable : String → Bool)
    (hpos : ∀ t, readable t = true → 0 ≤ counts t)
    (processed : List String) (st : Int × List String) (team : String)
    (h : LeastInv counts readable processed st) :
    LeastInv counts readable (processed ++ [team]) (leastStep counts readable st team) := by
  unfold leastStep
  by_cases hc : cntOf counts readable team = -1
  · rw [if_pos hc]
    have hrf : readable team = false := by
      cases hrt : readable team
      · rfl
      · exfalso
        have h0 := hpos team hrt
        rw [cntOf, hrt, if_pos rfl] at hc
        omega
    rcases h with ⟨h1, h2, h3⟩ | ⟨h1, h2, h3, h4⟩
    · exact Or.inl ⟨h1, h2, by
        intro t ht
        rcases List.mem_append.mp ht with ht | ht
        · exact h3 t ht
        · rw [List.mem_singleton.mp ht]; exact hrf⟩
    · refine Or.inr ⟨h1, h2, ?_, ?_⟩
      · intro m hm
        obtain ⟨hm1, hm2, hm3⟩ := h3 m hm
        exact ⟨List.mem_append_left _ hm1, hm2, hm3⟩
      · intro t ht hrt
        rcases List.mem_append.mp ht with ht | ht
        · exact h4 t ht hrt
        · rw [List.mem_singleton.mp ht] at hrt
          exact absurd hrt (by rw [hrf]; simp)
  · rw [if_neg hc]
    have hrt : readable team = true := by
      cases hrt : readable team
      · exfalso; rw [cntOf, hrt] at hc; simp at hc
      · rfl
    have hcnt : cntOf counts readable team = counts team := by
      rw [cntOf, hrt, if_pos rfl]
    by_cases hnew : st.1 = -1 ∨ cntOf counts readable team < st.1
    · rw [if_pos hnew]
      refine Or.inr ⟨hcnt ▸ hpos team hrt, by simp, ?_, ?_⟩
      · intro m hm
        rw [List.mem_singleton.mp hm]
        exact ⟨List.mem_append_right _ (List.mem_singleton_self _), hrt, hcnt.symm⟩
      · intro t ht hrt'
        rcases List.mem_append.mp ht with ht | ht
        · rcases hnew with hnew | hnew
          · rcases h with ⟨_, _, h3⟩ | ⟨h1, _, _, _⟩
            · exact absurd hrt' (by rw [h3 t ht]; simp)
            · omega
          · rcases h with ⟨h1, h2x, h3x⟩ | ⟨_, _, _, h4⟩
            · exact absurd hrt' (by rw [h3x t ht]; simp)
            · have := h4 t ht hrt'
              rw [hcnt] at hnew ⊢
              omega
        · rw [List.mem_singleton.mp ht, hcnt]
    · rw [if_neg hnew]
      push_neg at hnew
      obtain ⟨hne1, hle⟩ := hnew
      rcases h with ⟨h1, _, _⟩ | ⟨h1, h2, h3, h4⟩
      · exact absurd h1 hne1
      by_cases heq : cntOf counts readable team = st.1
      · rw [if_pos heq]
        refine Or.inr ⟨h1, by simp, ?_, ?_⟩
        · intro m hm
          rcases List.mem_append.mp hm with hm | hm
          · obtain ⟨hm1, hm2, hm3⟩ := h3 m hm
            exact ⟨List.mem_append_left _ hm1, hm2, hm3⟩
          · rw [List.mem_singleton.mp hm]
            refine ⟨List.mem_append_right _ (List.mem_singleton_self _), hrt, ?_⟩
            rw [← heq, hcnt]
        · intro t ht hrt'
          rcases List.mem_append.mp ht with ht | ht
          · exact h4 t ht hrt'
          · rw [List.mem_singleton.mp ht]
            rw [hcnt] at heq
            omega
      · rw [if_neg heq]
        refine Or.inr ⟨h1, h2, ?_, ?_⟩
        · intro m hm
          obtain ⟨hm1, hm2, hm3⟩ := h3 m hm
          exact ⟨List.mem_append_left _ hm1, hm2, hm3⟩
        · intro t ht hrt'
          rcases List.mem_append.mp ht with ht | ht
          · exact h4 t ht hrt'
          · rw [List.mem_singleton.mp ht]
            rw [hcnt] at hle
            omega

theorem leastFold_inv (counts : String → Int) (readable : String → Bool)
    (hpos : ∀ t, readable t = true → 0 ≤ counts t) :
    ∀ (teams processed : List String) (st : Int × List String),
      LeastInv counts readable processed st →
      LeastInv counts readable (processed ++ teams)
        (teams.foldl (leastStep counts readable) st) := by
  intro teams
  induction teams with
  | nil =>
    intro processed st h
    simpa using h
  | cons team teams ih =>
    intro processed st h
    rw [List.foldl_cons]
    have h2 := ih (processed ++ [team]) (leastStep counts readable st team)
      (leastStep_inv counts readable hpos processed st team h)
    simpa [List.append_assoc] using h2

theorem pickUniform_mem (l : List String) (pick : Nat) (h : l ≠ []) :
    pickUniform l pick ∈ l := by
  have hlen : 0 < l.length := List.length_pos.mpr h
  have hlt : pick % l.length < l.length := Nat.mod_lt _ hlen
  unfold pickUniform
  rw [List.getD_eq_getElem l "" hlt]
  exact List.getElem_mem hlt

end GoServices

namespace GoServices

/-- C7: for a fresh uuid, `CreateProfile` assigns a team of minimum
`player_count` among the teams whose count read succeeded (tie broken by
the random draw among exactly those minimizers, with the fixed fallback
pair when the candidate set is empty), and the profile's team username is
`CreatureBaseName(team)` (fixed table on the two known teams) followed by
the post-increment player count. -/
theorem createProfile_least_team_and_username
    (uuid : String) (teams : List String) (counts : String → Int)
    (readable : String → Bool) (pick pickFallback : Nat) (p : Player)
    (hpos : ∀ t, readable t = true → 0 ≤ counts t)
    (hp : p = createProfile uuid (some teams) counts readable pick pickFallback) :
    p.teamUsername = creatureBaseName p.team ++ toString (counts p.team + 1) ∧
    creatureBaseName "AQUA_CREEPERS" = "Creeper" ∧
    creatureBaseName "PURPLE_AXOLOTLS" = "Axolotl" ∧
    (leastPopulatedTeams teams counts readable ≠ [] →
      p.team ∈ teams ∧ readable p.team = true ∧
      ∀ t ∈ teams, readable t = true → counts p.team ≤ counts t) ∧
    (leastPopulatedTeams teams counts readable = [] → p.team ∈ fallbackTeams) := by
  subst hp
  refine ⟨rfl, rfl, rfl, ?_, ?_⟩
  · intro hne
    have hemp : (leastPopulatedTeams teams counts readable).isEmpty = false := by
      cases he : (leastPopulatedTeams teams counts readable).isEmpty
      · rfl
      · exact absurd (List.isEmpty_iff.mp he) hne
    have hassigned :
        (createProfile uuid (some teams) counts readable pick pickFallback).team
          = pickUniform (leastPopulatedTeams teams counts readable) pick := by
      show chooseAssignedTeam (some teams) counts readable pick pickFallback = _
      unfold chooseAssignedTeam
      simp only [Option.getD_some]
      rw [hemp, if_neg Bool.false_ne_true]
    have hpmem : (createProfile uuid (some teams) counts readable pick pickFallback).team
        ∈ leastPopulatedTeams teams counts readable := by
      rw [hassigned]
      exact pickUniform_mem _ pick hne
    have hinv := leastFold_inv counts readable hpos teams [] ((-1 : Int), ([] : List String))
      (Or.inl ⟨rfl, rfl, fun t ht => absurd ht (List.not_mem_nil t)⟩)
    rw [List.nil_append] at hinv
    rcases hinv with ⟨_, h2, _⟩ | ⟨_, _, h3, h4⟩
    · exact absurd h2 hne
    · obtain ⟨hm1, hm2, hm3⟩ := h3 _ hpmem
      refine ⟨hm1, hm2, ?_⟩
      intro t ht hrt
      rw [hm3]
      exact h4 t ht hrt
  · intro hempty
    have he : (leastPopulatedTeams teams counts readable).isEmpty = true := by
      rw [List.isEmpty_iff]
      exact hempty
    have hassigned :
        (createProfile uuid (some teams) counts readable pick pickFallback).team
          = pickUniform fallbackTeams pickFallback := by
      show chooseAssignedTeam (some teams) counts readable pick pickFallback = _
      unfold chooseAssignedTeam
      simp only [Option.getD_some]
      rw [he, if_pos rfl]
    rw [hassigned]
    exact pickUniform_mem fallbackTeams pickFallback (by simp [fallbackTeams])

/-- Concrete inputs for C7's witness: two readable teams with counts 2
and 1. -/
def witnessCounts : String → Int := fun t => if t = "PURPLE_AXOLOTLS" then 1 else 2

def witnessProfile : Player :=
  createProfile "u1" (some ["AQUA_CREEPERS", "PURPLE_AXOLOTLS"]) witnessCounts
    (fun _ => true) 0 0

/-- Witness for C7's theorem. -/
theorem createProfile_least_team_and_username_witness :
    witnessProfile.teamUsername
      = creatureBaseName witnessProfile.team
        ++ toString (witnessCounts witnessProfile.team + 1) ∧
    creatureBaseName "AQUA_CREEPERS" = "Creeper" ∧
    creatureBaseName "PURPLE_AXOLOTLS" = "Axolotl" ∧
    (leastPopulatedTeams ["AQUA_CREEPERS", "PURPLE_AXOLOTLS"] witnessCounts
        (fun _ => true) ≠ [] →
      witnessProfile.team ∈ ["AQUA_CREEPERS", "PURPLE_AXOLOTLS"] ∧
      (fun _ => true) witnessProfile.team = true ∧
      ∀ t ∈ ["AQUA_CREEPERS", "PURPLE_AXOLOTLS"], (fun _ => true) t = true →
        witnessCounts witnessProfile.team ≤ witnessCounts t) ∧
    (leastPopulatedTeams ["AQUA_CREEPERS", "PURPLE_AXOLOTLS"] witnessCounts
        (fun _ => true) = [] → witnessProfile.team ∈ fallbackTeams) :=
  createProfile_least_team_and_username "u1" ["AQUA_CREEPERS", "PURPLE_AXOLOTLS"]
    witnessCounts (fun _ => true) 0 0 witnessProfile
    (fun t _ => by unfold witnessCounts; split <;> norm_num) rfl

end GoServices

namespace GoServices

/-! ## Ban handler variant (`game/api/handler.go:184-232`) -/

/-- The ban request body. -/
structure BanHttpRequest where
  uuid : String
  durationSec : Int
  reason : String
deriving DecidableEq, Repr

/-- The response the handler writes: status, and for a 200 the
`expires_at` / `is_permanent` fields. -/
structure BanHttpResponse where
  status : Nat
  expiresAt : Option Int
  isPermanent : Option Bool
deriving DecidableEq, Repr

/-- `GameAPIHandlers.HandleBanPlayer` in `game/api/handler.go` (the
`/game/ban` variant).  `none` models a panic.  Invalid uuid ⇒ 400;
`durationSec = -1` ⇒ 400; `durationSec = 0` ⇒ permanent ban with
`banExpiresAt` left nil; failed ban call ⇒ 500; otherwise the 200 body is
built with `banExpiresAt.Unix()` evaluated unconditionally, which
dereferences the nil pointer on the permanent path. -/
def handleBanPlayer (req : BanHttpRequest) (now : Int) (validUUID banCallOk : Bool) :
    Option BanHttpResponse :=
  if !validUUID then some ⟨400, none, none⟩
  else if req.durationSec = -1 then some ⟨400, none, none⟩
  else
    let banExpiresAt : Option Int :=
      if req.durationSec = 0 then none else some (now + req.durationSec)
    if !banCallOk then some ⟨500, none, none⟩
    else
      match banExpiresAt with
      | none => none
      | some t => some ⟨200, some t, some (decide (req.durationSec = 0))⟩

/-- C8: a permanent-ban request (`duration_seconds = 0`) with a valid
uuid whose ban call succeeds makes the handler dereference the nil
`banExpiresAt` pointer while building the response — it panics (`none`)
instead of returning the documented 200 body. -/
theorem handleBanPlayer_panics_on_permanent_ban
    (req : BanHttpRequest) (now : Int) (h0 : req.durationSec = 0) :
    handleBanPlayer req now true true = none := by
  unfold handleBanPlayer
  rw [if_neg (by simp : ¬ ((!true) = true))]
  rw [if_neg (by rw [h0]; norm_num : ¬ (req.durationSec = -1))]
  rw [if_pos h0]
  rw [if_neg (by simp : ¬ ((!true) = true))]

/-- Witness for C8's theorem: ban request for "u" with duration 0. -/
theorem handleBanPlayer_panics_on_permanent_ban_witness :
    handleBanPlayer ⟨"u", 0, "cheating"⟩ 0 true true = none :=
  handleBanPlayer_panics_on_permanent_ban ⟨"u", 0, "cheating"⟩ 0 rfl

end GoServices
